import Mathlib

/-!
Verification of the deterministic generation and scoring layer of the
Miniverse cognitive mini-games repository.

The TypeScript sources are shallowly embedded: JavaScript numbers are
modelled as exact rationals (every numeric literal appearing in these
modules, and every arithmetic step they perform on the inputs considered
here, is exact in binary floating point or falls well inside the exact
range of doubles, e.g. the LCG step `1664525 * state + 1013904223` stays
below `2^53`), 32-bit wrap-around (`>>> 0`, `|= 0`) is modelled with
explicit `% 2 ^ 32` arithmetic on `Nat`/`Int`, and functions that can
`throw` return `Except String`.
-/

namespace Miniverse

/-! ## SeededRng (src/games/cancellation-task/rng.ts) -/

/-- One step of the linear congruential generator together with the float
it emits: `state = (1664525 * state + 1013904223) >>> 0`, emitting
`state / 2 ** 32`.  The multiplication and addition are exact in doubles
(the intermediate stays below `2 ^ 53`), so the `Nat` model is faithful. -/
def rngNext (s : ℕ) : ℚ × ℕ :=
  let s2 := (1664525 * s + 1013904223) % 4294967296
  ((s2 : ℚ) / 4294967296, s2)

/-- A JavaScript number as far as these modules can observe it: a finite
value (exact rational model) or one of the non-finite values rejected by
`Number.isFinite`. -/
inductive JsNumber where
  | num (q : ℚ)
  | inf (positive : Bool)
  | nan
deriving DecidableEq

/-- Number.isFinite. -/
def JsNumber.isFinite : JsNumber → Bool
  | .num _ => true
  | _ => false

/-- Core of `rng.int` on finite bounds:
`lower = Math.ceil(Math.min(min, max))`, `upper = Math.floor(Math.max(min, max))`;
if they agree return `lower` without touching the generator, otherwise
return `Math.floor(next() * (upper - lower + 1)) + lower`. -/
def intQ (a b : ℚ) (s : ℕ) : ℤ × ℕ :=
  if ⌈min a b⌉ = ⌊max a b⌋ then (⌈min a b⌉, s)
  else
    (⌊(rngNext s).1 * ((⌊max a b⌋ : ℚ) - (⌈min a b⌉ : ℚ) + 1)⌋ + ⌈min a b⌉, (rngNext s).2)

/-- `rng.int(min, max)`: throws on non-finite bounds, otherwise defers to
`intQ`. -/
def rngInt (mn mx : JsNumber) (s : ℕ) : Except String (ℤ × ℕ) :=
  match mn, mx with
  | .num a, .num b => .ok (intQ a b s)
  | _, _ => .error "Invalid range for integer generation"

/-- `rng.pick(values)`: one `next()` call indexes the list.  The source
throws on an empty list; every call site in the embedded generators
supplies a non-empty list, and the model returns `default` there. -/
def rngPick [Inhabited α] (values : List α) (s : ℕ) : α × ℕ :=
  let (v, s2) := rngNext s
  (values.getD (⌊v * (values.length : ℚ)⌋).toNat default, s2)

/-- Simultaneous swap of two positions of a list (no-op when either index
is out of range), the primitive of the Fisher-Yates loop. -/
def listSwap (l : List α) (i j : ℕ) : List α :=
  match l.get? i, l.get? j with
  | some x, some y => (l.set i y).set j x
  | _, _ => l

/-- The Fisher-Yates loop of `rng.shuffle`, indices running from
`copy.length - 1` down to `1`; the argument `i + 1` is the current index. -/
def fisherAux : ℕ → List α × ℕ → List α × ℕ
  | 0, p => p
  | i + 1, (l, s) =>
    let (v, s2) := rngNext s
    let j := (⌊v * ((i : ℚ) + 2)⌋).toNat
    fisherAux i (listSwap l (i + 1) j, s2)

/-- `rng.shuffle(values)`: Fisher-Yates on a copy of the input. -/
def rngShuffle (values : List α) (s : ℕ) : List α × ℕ :=
  fisherAux (values.length - 1) (values, s)

/-- The list of the first `n` floats emitted by an rng started in state
`s`, used to express determinism of the output sequence. -/
def rngStream (s : ℕ) : ℕ → List ℚ
  | 0 => []
  | n + 1 =>
    let (v, s2) := rngNext s
    v :: rngStream s2 n

/-! ## Stop-signal logic (src/games/stop-signal/logic.ts) -/

/-- clamp helper: `Math.min(Math.max(value, min), max)`. -/
def clamp (value mn mx : ℚ) : ℚ := min (max value mn) mx

/-- applyStaircase: 1-up/1-down staircase, move the delay by `step` in the
direction indicated by `success` and clamp into the source clamp shape. -/
def applyStaircase (current : ℚ) (success : Bool) (step mn mx : ℚ) : ℚ :=
  let direction : ℚ := if success then 1 else -1
  clamp (current + step * direction) mn mx

/-- meanOf: arithmetic mean, `none` on an empty list. -/
def meanOf (values : List ℚ) : Option ℚ :=
  if values.length = 0 then none
  else some ((values.foldl (· + ·) 0) / (values.length : ℚ))

/-- medianOf: median of the ascending sort, `none` on an empty list. -/
def medianOf (values : List ℚ) : Option ℚ :=
  if values.length = 0 then none
  else
    let sorted := values.mergeSort (fun a b => a ≤ b)
    let middle := sorted.length / 2
    if sorted.length % 2 = 0 then
      some ((sorted.getD (middle - 1) 0 + sorted.getD middle 0) / 2)
    else some (sorted.getD middle 0)

/-- computeSsrtIntegration: the integration-method SSRT estimate. -/
def computeSsrtIntegration (sortedGoReactionTimes : List ℚ)
    (stopSuccessRate : ℚ) (meanSsd : Option ℚ) : Option ℚ :=
  match meanSsd with
  | none => none
  | some m =>
    if sortedGoReactionTimes.length = 0 then none
    else
      let clampedSuccess := clamp stopSuccessRate 0 1
      let failureRate := 1 - clampedSuccess
      let rank := ⌈failureRate * (sortedGoReactionTimes.length : ℚ)⌉
      let index := min ((sortedGoReactionTimes.length : ℤ) - 1) (max 0 (rank - 1))
      some (sortedGoReactionTimes.getD index.toNat 0 - m)

/-- Trial type of the stop-signal task. -/
inductive TrialType where
  | go
  | stop
deriving DecidableEq

/-- TrialMetricsInput (stop-signal).  The optional `aborted` flag of the
source defaults to `false`. -/
structure TrialMetricsInput where
  type : TrialType
  reactionTime : Option ℚ
  correct : Bool
  stopSuccess : Option Bool
  stopSignalDelay : Option ℚ
  aborted : Bool
deriving DecidableEq

/-- SessionMetrics record. -/
structure SessionMetrics where
  totalTrials : ℕ
  completedTrials : ℕ
  goTrials : ℕ
  stopTrials : ℕ
  goCorrect : ℕ
  goCorrectRate : Option ℚ
  stopSuccessCount : ℕ
  stopSuccessRate : Option ℚ
  goReactionTimes : List ℚ
  goReactionTimeMean : Option ℚ
  goReactionTimeMedian : Option ℚ
  meanSSD : Option ℚ
  medianSSD : Option ℚ
  ssrt : Option ℚ

/-- Non-aborted trials (`validTrials` in the source). -/
def validTrialsOf (trials : List TrialMetricsInput) : List TrialMetricsInput :=
  trials.filter (fun t => !t.aborted)

/-- Go trials among the valid trials. -/
def goTrialsOf (trials : List TrialMetricsInput) : List TrialMetricsInput :=
  (validTrialsOf trials).filter (fun t => t.type == TrialType.go)

/-- Stop trials among the valid trials. -/
def stopTrialsOf (trials : List TrialMetricsInput) : List TrialMetricsInput :=
  (validTrialsOf trials).filter (fun t => t.type == TrialType.stop)

/-- Reaction times of correct go trials, ascending
(`goReactionTimes` in the source; the `typeof === 'number'` guard plus the
`as number` cast is the `filterMap`). -/
def goReactionTimesOf (trials : List TrialMetricsInput) : List ℚ :=
  (((goTrialsOf trials).filter (fun t => t.correct && t.reactionTime.isSome)).filterMap
    (fun t => t.reactionTime)).mergeSort (fun a b => a ≤ b)

/-- Stop-signal delays carried by stop trials (`ssdValues` in the source). -/
def ssdValuesOf (trials : List TrialMetricsInput) : List ℚ :=
  (stopTrialsOf trials).filterMap (fun t => t.stopSignalDelay)

/-- computeSessionMetrics: aggregate statistics over a trial history. -/
def computeSessionMetrics (trials : List TrialMetricsInput) : SessionMetrics :=
  let goTrials := goTrialsOf trials
  let stopTrials := stopTrialsOf trials
  let goCorrect := (goTrials.filter (fun t => t.correct)).length
  let goCorrectRate : Option ℚ :=
    if 0 < goTrials.length then some ((goCorrect : ℚ) / (goTrials.length : ℚ)) else none
  let goReactionTimes := goReactionTimesOf trials
  let stopSuccessCount := (stopTrials.filter (fun t => t.stopSuccess == some true)).length
  let stopSuccessRate : Option ℚ :=
    if 0 < stopTrials.length then some ((stopSuccessCount : ℚ) / (stopTrials.length : ℚ))
    else none
  let meanSSD := meanOf (ssdValuesOf trials)
  let ssrt :=
    match stopSuccessRate with
    | none => none
    | some rate => computeSsrtIntegration goReactionTimes rate meanSSD
  { totalTrials := trials.length
    completedTrials := (validTrialsOf trials).length
    goTrials := goTrials.length
    stopTrials := stopTrials.length
    goCorrect := goCorrect
    goCorrectRate := goCorrectRate
    stopSuccessCount := stopSuccessCount
    stopSuccessRate := stopSuccessRate
    goReactionTimes := goReactionTimes
    goReactionTimeMean := meanOf goReactionTimes
    goReactionTimeMedian := medianOf goReactionTimes
    meanSSD := meanSSD
    medianSSD := medianOf (ssdValuesOf trials)
    ssrt := ssrt }

/-! ## Rhythm tapping logic (src/unnamed rhythm module, `logic.ts`) -/

/-- Tap input source. -/
inductive TapSource where
  | keyboard
  | mouse
  | touch
  | unknown
deriving DecidableEq

/-- Beat: scheduled position in a block. -/
structure Beat where
  index : ℕ
  actualTimeMs : ℚ
  expectedTimeMs : ℚ
deriving DecidableEq

/-- Tap event. -/
structure Tap where
  timeMs : ℚ
  source : TapSource
deriving DecidableEq

/-- BeatTapMatch: a beat paired with at most one tap and the signed
asynchrony. -/
structure BeatTapMatch where
  beat : Beat
  tap : Option Tap
  asynchrony : Option ℚ
deriving DecidableEq

/-- Default matching tolerance (ms). -/
def DEFAULT_BEAT_TOLERANCE_MS : ℚ := 180

/-- Default outlier threshold (ms). -/
def DEFAULT_OUTLIER_THRESHOLD_MS : ℚ := 150

/-- bpmToIntervalMs: clamp bpm into `[1, 300]`, round, convert. -/
def bpmToIntervalMs (bpm : ℚ) : ℚ :=
  let clamped := max 1 (min 300 (round bpm))
  60000 / clamped

/-- calculateBeatSchedule: `max(1, ⌊beatCount⌋)` beats spaced `intervalMs`
apart from `startTimeMs`, with `expectedTimeMs` shifted by the latency
offset. -/
def calculateBeatSchedule (startTimeMs : ℚ) (beatCount : ℚ) (intervalMs latencyOffsetMs : ℚ) :
    List Beat :=
  let totalBeats := max 1 ⌊beatCount⌋.toNat
  (List.range totalBeats).map (fun (index : ℕ) =>
    let actualTimeMs := startTimeMs + (index : ℚ) * intervalMs
    { index := index, actualTimeMs := actualTimeMs,
      expectedTimeMs := actualTimeMs + latencyOffsetMs })

/-- Distance used by the matcher: `|tap.timeMs - beat.expectedTimeMs|`. -/
def tapDist (t : Tap) (b : Beat) : ℚ := |t.timeMs - b.expectedTimeMs|

/-- The scanning loop of `assignNearestTaps` for one beat: walk the tap
array from index `i`, skipping used slots, keeping the strictly closest
slot seen so far (first slot wins ties). -/
def bestSlotAux (used : ℕ → Bool) (b : Beat) :
    List Tap → ℕ → Option (ℕ × ℚ) → Option (ℕ × ℚ)
  | [], _, best => best
  | t :: ts, i, best =>
    if used i then bestSlotAux used b ts (i + 1) best
    else
      let d := tapDist t b
      let best2 :=
        match best with
        | none => some (i, d)
        | some p => if d < p.2 then some (i, d) else some p
      bestSlotAux used b ts (i + 1) best2

/-- Mark a tap slot as consumed. -/
def markUsed (used : ℕ → Bool) (i : ℕ) : ℕ → Bool :=
  fun j => if j = i then true else used j

/-- The beat loop of `assignNearestTaps`, returning for every beat the
index of the consumed tap slot (or `none`). -/
def assignGo (taps : List Tap) (tol : ℚ) : List Beat → (ℕ → Bool) → List (Option ℕ)
  | [], _ => []
  | b :: bs, used =>
    match bestSlotAux used b taps 0 none with
    | some (i, d) =>
      if d ≤ tol then some i :: assignGo taps tol bs (markUsed used i)
      else none :: assignGo taps tol bs used
    | none => none :: assignGo taps tol bs used

/-- Build the returned record for one beat from the chosen slot index. -/
def matchOfChoice (taps : List Tap) (b : Beat) : Option ℕ → BeatTapMatch
  | some i =>
    match taps[i]? with
    | some t => { beat := b, tap := some t, asynchrony := some (t.timeMs - b.expectedTimeMs) }
    | none => { beat := b, tap := none, asynchrony := none }
  | none => { beat := b, tap := none, asynchrony := none }

/-- assignNearestTaps: greedy beat-ordered matching of taps to beats
within `max(0, toleranceMs)`. -/
def assignNearestTaps (beats : List Beat) (taps : List Tap) (toleranceMs : ℚ) :
    List BeatTapMatch :=
  let sanitizedTolerance := max 0 toleranceMs
  let choices := assignGo taps sanitizedTolerance beats (fun _ => false)
  (beats.zip choices).map (fun p => matchOfChoice taps p.1 p.2)

/-- collectAsynchronies: the non-null asynchronies (every rational of the
model is finite, so the source's `Number.isFinite` guard is always true
here). -/
def collectAsynchronies (ms : List BeatTapMatch) : List ℚ :=
  (ms.map (fun entry => entry.asynchrony)).filterMap id

/-- AsynchronyMetrics.  `rmsError` and `stdDev` are square roots and hence
irrational in general, so those two fields live in `ℝ`. -/
structure AsynchronyMetrics where
  sampleSize : ℕ
  meanAsynchrony : Option ℚ
  rmsError : Option ℝ
  stdDev : Option ℝ
  outlierRate : Option ℚ

/-- computeAsynchronyMetrics: mean, RMS, population standard deviation and
outlier rate over the matched asynchronies; all-null record when no sample
exists.  (`noncomputable` purely because of `Real.sqrt`.) -/
noncomputable def computeAsynchronyMetrics (ms : List BeatTapMatch)
    (outlierThresholdMs : ℚ) : AsynchronyMetrics :=
  let asynchronies := collectAsynchronies ms
  let sampleSize := asynchronies.length
  if sampleSize = 0 then
    { sampleSize := 0, meanAsynchrony := none, rmsError := none, stdDev := none,
      outlierRate := none }
  else
    let meanAsynchrony : ℚ := (asynchronies.foldl (· + ·) 0) / (sampleSize : ℚ)
    let rmsError : ℝ :=
      Real.sqrt (((asynchronies.foldl (fun sum value => sum + value * value) 0) /
        (sampleSize : ℚ) : ℚ))
    let variance : ℚ :=
      (asynchronies.foldl (fun sum value => sum + (value - meanAsynchrony) ^ 2) 0) /
        (sampleSize : ℚ)
    let outliers := asynchronies.filter (fun value => max 0 outlierThresholdMs < |value|)
    { sampleSize := sampleSize
      meanAsynchrony := some meanAsynchrony
      rmsError := some rmsError
      stdDev := some (Real.sqrt (variance : ℚ))
      outlierRate := some ((outliers.length : ℚ) / (sampleSize : ℚ)) }

/-- Specification relation for the greedy matcher: `GreedyMatch taps tol
beats used choices` holds when `choices` records, beat by beat, either a
fresh tap slot at minimal `|tap - expected|` distance within `tol`
(consuming it), or no slot because every still-unused tap is farther than
`tol`. -/
inductive GreedyMatch (taps : List Tap) (tol : ℚ) :
    List Beat → (ℕ → Bool) → List (Option ℕ) → Prop
  | nil (used : ℕ → Bool) : GreedyMatch taps tol [] used []
  | matched (b : Beat) (bs : List Beat) (used : ℕ → Bool) (i : ℕ) (t : Tap)
      (rest : List (Option ℕ)) :
      taps[i]? = some t →
      used i = false →
      tapDist t b ≤ tol →
      (∀ j u, taps[j]? = some u → used j = false → tapDist t b ≤ tapDist u b) →
      GreedyMatch taps tol bs (markUsed used i) rest →
      GreedyMatch taps tol (b :: bs) used (some i :: rest)
  | unmatched (b : Beat) (bs : List Beat) (used : ℕ → Bool) (rest : List (Option ℕ)) :
      (∀ j u, taps[j]? = some u → used j = false → tol < tapDist u b) →
      GreedyMatch taps tol bs used rest →
      GreedyMatch taps tol (b :: bs) used (none :: rest)

/-! ## Memory matrix (src/games/memory-matrix/index.ts) -/

/-- Cell position in the memory grid. -/
structure MemoryCellPosition where
  index : ℕ
  row : ℕ
  column : ℕ
deriving DecidableEq

/-- A generated recall pattern. -/
structure MemoryPattern where
  cells : List MemoryCellPosition
  order : List ℕ
deriving DecidableEq

/-- Options of generatePattern.  `gridSize` and `patternLength` are kept in
`ℕ` (the source validates `Number.isInteger` and positivity on them). -/
structure GeneratePatternOptions where
  gridSize : ℕ
  patternLength : ℕ
  exposureMs : ℚ
  avoidAdjacency : Bool

/-- indexToPosition. -/
def indexToPosition (index size : ℕ) : MemoryCellPosition :=
  { index := index, row := index / size, column := index % size }

/-- isAdjacent: 4-directional adjacency (Manhattan distance one). -/
def isAdjacent (a b : MemoryCellPosition) : Bool :=
  ((a.row : ℤ) - (b.row : ℤ)).natAbs + ((a.column : ℤ) - (b.column : ℤ)).natAbs == 1

/-- chooseFromPool: `pool[Math.floor(rng.next() * pool.length)] ?? pool[0]`
together with the advanced generator state. -/
def chooseFromPool (pool : List ℕ) (s : ℕ) : ℕ × ℕ :=
  let r := rngNext s
  let pickIndex := (⌊r.1 * (pool.length : ℚ)⌋).toNat
  (pool.getD pickIndex (pool.getD 0 0), r.2)

/-- The indices still available to generatePattern: the full index range
filtered by `!chosen.some(entry => entry.index === candidate)`. -/
def patternRemaining (gridSize : ℕ) (chosen : List MemoryCellPosition) : List ℕ :=
  (List.range (gridSize * gridSize)).filter
    (fun candidate => !(chosen.any (fun entry => entry.index == candidate)))

/-- The pool generatePattern draws from: when adjacency avoidance is on and
something is already chosen, prefer the non-adjacent remainder, falling
back to the full remainder when that is empty. -/
def patternPool (gridSize : ℕ) (avoidAdjacency : Bool) (chosen : List MemoryCellPosition) :
    List ℕ :=
  if avoidAdjacency = true ∧ 0 < chosen.length then
    if ((patternRemaining gridSize chosen).filter (fun candidate =>
        chosen.all (fun entry =>
          !(isAdjacent entry (indexToPosition candidate gridSize))))).isEmpty then
      patternRemaining gridSize chosen
    else
      (patternRemaining gridSize chosen).filter (fun candidate =>
        chosen.all (fun entry => !(isAdjacent entry (indexToPosition candidate gridSize))))
  else patternRemaining gridSize chosen

/-- The selection loop of generatePattern.  The source loops while
`chosen.length < patternLength`, growing `chosen` by exactly one element
per iteration (breaking only when no index remains), so running the loop
body with fuel `patternLength` is exact. -/
def patternLoop (gridSize patternLength : ℕ) (avoidAdjacency : Bool) :
    ℕ → List MemoryCellPosition → ℕ → List MemoryCellPosition × ℕ
  | 0, chosen, s => (chosen, s)
  | fuel + 1, chosen, s =>
    if chosen.length < patternLength then
      if (patternRemaining gridSize chosen).isEmpty then (chosen, s)
      else
        let c := chooseFromPool (patternPool gridSize avoidAdjacency chosen) s
        patternLoop gridSize patternLength avoidAdjacency fuel
          (chosen ++ [indexToPosition c.1 gridSize]) c.2
    else (chosen, s)

/-- generatePattern: validate, select `patternLength` distinct cells
(preferring non-adjacent ones when asked), return cells plus the index
order. -/
def generatePattern (opts : GeneratePatternOptions) (s : ℕ) :
    Except String MemoryPattern :=
  if opts.gridSize = 0 then .error "Grid size must be a positive integer"
  else if opts.patternLength = 0 then .error "Pattern length must be a positive integer"
  else if opts.gridSize * opts.gridSize < opts.patternLength then
    .error "Pattern length cannot exceed grid capacity"
  else if opts.exposureMs ≤ 0 then .error "Exposure duration must be positive"
  else if (patternLoop opts.gridSize opts.patternLength opts.avoidAdjacency
      opts.patternLength [] s).1.length ≠ opts.patternLength then
    .error "Unable to generate pattern with requested parameters"
  else
    .ok { cells := (patternLoop opts.gridSize opts.patternLength opts.avoidAdjacency
            opts.patternLength [] s).1
          order := (patternLoop opts.gridSize opts.patternLength opts.avoidAdjacency
            opts.patternLength [] s).1.map (fun entry => entry.index) }

/-! ## Cancellation task (src/games/cancellation-task/generator.ts and
types.ts), plus seed normalization from rng.ts -/

/-- Shape enum. -/
inductive Shape where
  | triangle
  | circle
  | square
deriving DecidableEq

instance : Inhabited Shape := ⟨Shape.triangle⟩

/-- Color enum. -/
inductive Color where
  | rose
  | amber
  | emerald
  | sky
  | violet
  | indigo
deriving DecidableEq

instance : Inhabited Color := ⟨Color.rose⟩

/-- A (color, shape) pair, i.e. `Pick<Cell, 'color' | 'shape'>`. -/
structure Combo where
  color : Color
  shape : Shape
deriving DecidableEq

instance : Inhabited Combo := ⟨⟨Color.rose, Shape.triangle⟩⟩

/-- A grid cell. -/
structure Cell where
  id : String
  shape : Shape
  color : Color
  isTarget : Bool
deriving DecidableEq

/-- Target rule: the behaviourally relevant fields of
`TargetRuleDefinition` (the `id`/`label`/`description` strings play no
role in generation). -/
structure TargetRuleDefinition where
  predicate : Combo → Bool
  sampleTargets : List Combo

/-- Distractor similarity policy. -/
inductive SimilarityLevel where
  | contrast
  | mixed
  | mimic
deriving DecidableEq

/-- generateGrid options. -/
structure GenerateGridOptions where
  size : ℕ
  minTargets : ℕ
  maxTargets : ℕ
  palette : List Color
  shapes : List Shape
  rule : TargetRuleDefinition
  similarity : SimilarityLevel

/-- generateGrid result. -/
structure GeneratedGrid where
  size : ℕ
  cells : List Cell
  targetCount : ℕ
deriving DecidableEq

/-- A provisional cell before shuffling and id assignment. -/
structure ProvisionalCell where
  color : Color
  shape : Shape
  isTarget : Bool
deriving DecidableEq

/-- extractUnique: `[...new Set(values)]`, keeping first occurrences in
order. -/
def extractUnique [DecidableEq α] (values : List α) : List α :=
  values.foldl (fun acc v => if v ∈ acc then acc else acc ++ [v]) []

/-- The candidate target combinations: `rule.sampleTargets` when non-empty,
else all palette x shapes pairs satisfying the predicate. -/
def availableTargetCombos (o : GenerateGridOptions) : List Combo :=
  if o.rule.sampleTargets.length ≠ 0 then o.rule.sampleTargets
  else o.palette.flatMap (fun color =>
    (o.shapes.map (fun shape => Combo.mk color shape)).filter o.rule.predicate)

/-- Colors appearing among the target combinations. -/
def targetColorList (o : GenerateGridOptions) : List Color :=
  extractUnique ((availableTargetCombos o).map (fun combo => combo.color))

/-- Shapes appearing among the target combinations. -/
def targetShapeList (o : GenerateGridOptions) : List Shape :=
  extractUnique ((availableTargetCombos o).map (fun combo => combo.shape))

/-- Palette colors not used by any target combination. -/
def nonTargetColors (o : GenerateGridOptions) : List Color :=
  o.palette.filter (fun color => color ∉ targetColorList o)

/-- Shapes not used by any target combination. -/
def nonTargetShapes (o : GenerateGridOptions) : List Shape :=
  o.shapes.filter (fun shape => shape ∉ targetShapeList o)

/-- One distractor attempt (`attemptDistractor`), consuming generator state
exactly as the source does: the `mixed` similarity draw, then the two
mimic-preference draws (short-circuited when the target list is empty),
then two picks. -/
def attemptDistractor (o : GenerateGridOptions) (s : ℕ) : Combo × ℕ :=
  let contrastStep : Bool × ℕ :=
    match o.similarity with
    | .contrast => (true, s)
    | .mimic => (false, s)
    | .mixed =>
      let r := rngNext s
      (decide (r.1 < 1/2), r.2)
  if contrastStep.1 then
    let colorPool := if nonTargetColors o ≠ [] then nonTargetColors o else o.palette
    let shapePool := if nonTargetShapes o ≠ [] then nonTargetShapes o else o.shapes
    let c := rngPick colorPool contrastStep.2
    let sh := rngPick shapePool c.2
    (⟨c.1, sh.1⟩, sh.2)
  else
    let colorPref : Bool × ℕ :=
      if 0 < (targetColorList o).length then
        let r := rngNext contrastStep.2
        (decide (r.1 < 13/20), r.2)
      else (false, contrastStep.2)
    let shapePref : Bool × ℕ :=
      if 0 < (targetShapeList o).length then
        let r := rngNext colorPref.2
        (decide (r.1 < 13/20), r.2)
      else (false, colorPref.2)
    if colorPref.1 ∧ nonTargetShapes o ≠ [] then
      let c := rngPick (targetColorList o) shapePref.2
      let sh := rngPick (nonTargetShapes o) c.2
      (⟨c.1, sh.1⟩, sh.2)
    else if shapePref.1 ∧ nonTargetColors o ≠ [] then
      let c := rngPick (nonTargetColors o) shapePref.2
      let sh := rngPick (targetShapeList o) c.2
      (⟨c.1, sh.1⟩, sh.2)
    else if targetColorList o ≠ [] ∧ targetShapeList o ≠ [] then
      let c := rngPick (targetColorList o) shapePref.2
      let sh := rngPick (targetShapeList o) c.2
      (⟨c.1, sh.1⟩, sh.2)
    else
      let c := rngPick o.palette shapePref.2
      let sh := rngPick o.shapes c.2
      (⟨c.1, sh.1⟩, sh.2)

/-- The bounded retry loop of `buildDistractor` (40 attempts), returning
the first candidate that does not satisfy the rule. -/
def distractorAttemptLoop (o : GenerateGridOptions) : ℕ → ℕ → Option Combo × ℕ
  | 0, s => (none, s)
  | n + 1, s =>
    if o.rule.predicate (attemptDistractor o s).1 = false then
      (some (attemptDistractor o s).1, (attemptDistractor o s).2)
    else distractorAttemptLoop o n (attemptDistractor o s).2

/-- The fallback color: first palette entry whose pairing with `shapes[0]`
escapes the rule, else `palette[0]`. -/
def fallbackColor (o : GenerateGridOptions) : Color :=
  (o.palette.find? (fun entry =>
    !(o.rule.predicate ⟨entry, o.shapes.getD 0 default⟩))).getD (o.palette.getD 0 default)

/-- The fallback shape for the fallback color. -/
def fallbackShape (o : GenerateGridOptions) : Shape :=
  (o.shapes.find? (fun entry =>
    !(o.rule.predicate ⟨fallbackColor o, entry⟩))).getD (o.shapes.getD 0 default)

/-- buildDistractor: bounded retries, then the deterministic fallback,
throwing when even the fallback satisfies the rule. -/
def buildDistractor (o : GenerateGridOptions) (s : ℕ) : Except String (Combo × ℕ) :=
  match distractorAttemptLoop o 40 s with
  | (some c, s2) => .ok (c, s2)
  | (none, s2) =>
    if o.rule.predicate ⟨fallbackColor o, fallbackShape o⟩ = true then
      .error "Unable to produce distractor that does not satisfy target rule"
    else .ok (⟨fallbackColor o, fallbackShape o⟩, s2)

/-- The `while (provisionalCells.length < totalCells)` fill loop, emitting
the requested number of distractors. -/
def fillDistractors (o : GenerateGridOptions) : ℕ → ℕ → Except String (List Combo × ℕ)
  | 0, s => .ok ([], s)
  | n + 1, s =>
    match buildDistractor o s with
    | .error e => .error e
    | .ok (c, s2) =>
      match fillDistractors o n s2 with
      | .error e => .error e
      | .ok p => .ok (c :: p.1, p.2)

/-- totalCells. -/
def totalCellsOf (o : GenerateGridOptions) : ℕ := o.size * o.size

/-- clampedMax: `Math.max(1, Math.min(maxTargets, totalCells))`. -/
def clampedMaxOf (o : GenerateGridOptions) : ℕ := max 1 (min o.maxTargets (totalCellsOf o))

/-- clampedMin: `Math.min(Math.max(minTargets, 1), clampedMax)`. -/
def clampedMinOf (o : GenerateGridOptions) : ℕ := min (max o.minTargets 1) (clampedMaxOf o)

/-- Resolve the target count, drawing `rng.int(clampedMin, clampedMax)`
exactly when the clamped bounds differ. -/
def targetCountStep (o : GenerateGridOptions) (s : ℕ) : ℕ × ℕ :=
  if clampedMinOf o = clampedMaxOf o then (clampedMinOf o, s)
  else
    let r := intQ (clampedMinOf o : ℚ) (clampedMaxOf o : ℚ) s
    (r.1.toNat, r.2)

/-- The target cells, cycling through the candidate combinations. -/
def targetCells (o : GenerateGridOptions) (targetCount : ℕ) : List ProvisionalCell :=
  (List.range targetCount).map (fun index =>
    let preset := (availableTargetCombos o).getD
      (index % (availableTargetCombos o).length) default
    { color := preset.color, shape := preset.shape, isTarget := true })

/-- Shuffle the provisional cells and attach sequential ids in post-shuffle
order. -/
def gridCells (provisional : List ProvisionalCell) (s : ℕ) : List Cell :=
  ((rngShuffle provisional s).1).enum.map (fun p =>
    { id := "cell-" ++ toString p.1, shape := p.2.shape, color := p.2.color,
      isTarget := p.2.isTarget })

/-- generateGrid: validate, resolve the target count, lay out target cells,
fill with rule-avoiding distractors, shuffle, attach ids. -/
def generateGrid (o : GenerateGridOptions) (s : ℕ) : Except String GeneratedGrid :=
  if o.size = 0 then .error "Grid size must be greater than zero"
  else if o.palette.length = 0 ∨ o.shapes.length = 0 then
    .error "Palette and shapes must not be empty"
  else if availableTargetCombos o = [] then
    .error "Target rule cannot be satisfied with provided palette or shapes"
  else
    match fillDistractors o (totalCellsOf o - (targetCountStep o s).1)
        (targetCountStep o s).2 with
    | .error e => .error e
    | .ok p =>
      .ok { size := o.size
            cells := gridCells
              (targetCells o (targetCountStep o s).1 ++
                p.1.map (fun c => ProvisionalCell.mk c.color c.shape false)) p.2
            targetCount := (targetCountStep o s).1 }

/-- A seed value: a finite number or a string.  (A non-finite numeric seed
and an absent seed fall through to `Math.random()` in the source; the
`ambient` argument below models that non-deterministic draw.) -/
inductive Seed where
  | num (value : ℚ)
  | str (value : String)

/-- ToInt32, i.e. the effect of `|= 0`. -/
def toInt32 (n : ℤ) : ℤ := ((n + 2 ^ 31) % 2 ^ 32) - 2 ^ 31

/-- JavaScript truncation toward zero. -/
def jsTrunc (q : ℚ) : ℤ := if q < 0 then ⌈q⌉ else ⌊q⌋

/-- ToUint32, i.e. the effect of `>>> 0`. -/
def toUint32 (n : ℤ) : ℕ := (n % 2 ^ 32).toNat

/-- One step of the string-seed rolling hash:
`hash = (hash << 5) - hash + charCode; hash |= 0`.  (`Char.toNat` agrees
with `charCodeAt` on the basic multilingual plane.) -/
def hashStep (h : ℤ) (c : Char) : ℤ := toInt32 (toInt32 (h * 32) - h + (c.toNat : ℤ))

/-- The string-seed rolling hash. -/
def hashString (sv : String) : ℤ := sv.data.foldl hashStep 0

/-- normalizeSeed.  `ambient` stands for the `Math.floor(Math.random() *
2 ** 32)` draw taken when no usable seed is supplied. -/
def normalizeSeed (seed : Option Seed) (ambient : ℕ) : ℕ :=
  match seed with
  | some (.num q) => toUint32 (jsTrunc q)
  | some (.str sv) => if 0 < sv.length then toUint32 (hashString sv) else ambient % 2 ^ 32
  | none => ambient % 2 ^ 32

/-- createSeededRng: the initial generator state, with the zero seed
coerced to 1 (`normalizeSeed(seed) || 1`). -/
def createSeededRng (seed : Option Seed) (ambient : ℕ) : ℕ :=
  if normalizeSeed seed ambient = 0 then 1 else normalizeSeed seed ambient

end Miniverse

namespace Miniverse

/-- The float emitted by `rngNext` is nonnegative. -/
theorem rngNext_fst_nonneg (s : ℕ) : 0 ≤ (rngNext s).1 := by
  unfold rngNext
  positivity

/-- The float emitted by `rngNext` is strictly below one. -/
theorem rngNext_fst_lt_one (s : ℕ) : (rngNext s).1 < 1 := by
  unfold rngNext
  rw [div_lt_one (by norm_num)]
  exact_mod_cast Nat.mod_lt _ (by norm_num)

/-- Any invariant of the accumulator that also holds of every unused tap
slot in the scanned suffix holds of the scan result. -/
theorem bestSlotAux_spec (used : ℕ → Bool) (b : Beat) (P : ℕ × ℚ → Prop) :
    ∀ (ts : List Tap) (i : ℕ) (best : Option (ℕ × ℚ)),
      (∀ p, best = some p → P p) →
      (∀ k t, ts[k]? = some t → used (i + k) = false → P (i + k, tapDist t b)) →
      ∀ p, bestSlotAux used b ts i best = some p → P p := by
  intro ts
  induction ts with
  | nil =>
    intro i best hbest _ p hp
    exact hbest p hp
  | cons t ts ih =>
    intro i best hbest hts p hp
    rw [bestSlotAux] at hp
    by_cases hu : used i
    · rw [if_pos hu] at hp
      refine ih (i + 1) best hbest ?_ p hp
      intro k u hk huk
      have heq : i + 1 + k = i + (k + 1) := by omega
      rw [heq] at huk ⊢
      exact hts (k + 1) u (by simpa using hk) huk
    · rw [if_neg hu] at hp
      refine ih (i + 1) _ ?_ ?_ p hp
      · intro q hq
        cases best with
        | none =>
          simp only at hq
          cases hq
          exact hts 0 t (by simp) (by simpa using Bool.eq_false_iff.mpr hu)
        | some pr =>
          simp only at hq
          by_cases hlt : tapDist t b < pr.2
          · rw [if_pos hlt] at hq
            cases hq
            exact hts 0 t (by simp) (by simpa using Bool.eq_false_iff.mpr hu)
          · rw [if_neg hlt] at hq
            cases hq
            exact hbest _ rfl
      · intro k u hk huk
        have heq : i + 1 + k = i + (k + 1) := by omega
        rw [heq] at huk ⊢
        exact hts (k + 1) u (by simpa using hk) huk

/-- The distance found by the scan is minimal among the unused slots of the
scanned suffix, and no larger than the accumulator distance. -/
theorem bestSlotAux_le (used : ℕ → Bool) (b : Beat) :
    ∀ (ts : List Tap) (i : ℕ) (best : Option (ℕ × ℚ)) (j : ℕ) (d : ℚ),
      bestSlotAux used b ts i best = some (j, d) →
      (∀ k t, ts[k]? = some t → used (i + k) = false → d ≤ tapDist t b) ∧
      (∀ j0 d0, best = some (j0, d0) → d ≤ d0) := by
  intro ts
  induction ts with
  | nil =>
    intro i best j d hp
    refine ⟨?_, ?_⟩
    · intro k t hk
      simp at hk
    · intro j0 d0 hbest
      rw [bestSlotAux] at hp
      rw [hbest] at hp
      cases hp
      exact le_refl _
  | cons t ts ih =>
    intro i best j d hp
    rw [bestSlotAux] at hp
    by_cases hu : used i
    · rw [if_pos hu] at hp
      obtain ⟨ha, hb⟩ := ih (i + 1) best j d hp
      refine ⟨?_, hb⟩
      intro k u hk huk
      cases k with
      | zero =>
        simp at hk
        subst hk
        simp at huk
        rw [huk] at hu
        exact absurd hu (by simp)
      | succ k =>
        have heq : i + (k + 1) = i + 1 + k := by omega
        rw [heq] at huk
        exact ha k u (by simpa using hk) huk
    · rw [if_neg hu] at hp
      obtain ⟨ha, hb⟩ := ih (i + 1) _ j d hp
      have hd_le_best2 : ∀ j2 d2,
          (match best with
            | none => some (i, tapDist t b)
            | some p => if tapDist t b < p.2 then some (i, tapDist t b) else some p) =
            some (j2, d2) → d ≤ d2 := by
        intro j2 d2 h2
        exact hb j2 d2 h2
      have hd_le_dt : d ≤ tapDist t b := by
        cases best with
        | none => exact hd_le_best2 i (tapDist t b) rfl
        | some pr =>
          by_cases hlt : tapDist t b < pr.2
          · exact hd_le_best2 i (tapDist t b) (by simp [hlt])
          · exact le_trans (hd_le_best2 pr.1 pr.2 (by simp [hlt])) (le_of_not_lt hlt)
      refine ⟨?_, ?_⟩
      · intro k u hk huk
        cases k with
        | zero =>
          simp at hk
          subst hk
          exact hd_le_dt
        | succ k =>
          have heq : i + (k + 1) = i + 1 + k := by omega
          rw [heq] at huk
          exact ha k u (by simpa using hk) huk
      · intro j0 d0 hbest
        subst hbest
        by_cases hlt : tapDist t b < d0
        · exact le_trans hd_le_dt hlt.le
        · exact hb j0 d0 (by simp [hlt])

/-- A failed scan means the accumulator was empty and every slot of the
scanned suffix is used. -/
theorem bestSlotAux_none (used : ℕ → Bool) (b : Beat) :
    ∀ (ts : List Tap) (i : ℕ) (best : Option (ℕ × ℚ)),
      bestSlotAux used b ts i best = none →
      best = none ∧ ∀ k t, ts[k]? = some t → used (i + k) = true := by
  intro ts
  induction ts with
  | nil =>
    intro i best hp
    rw [bestSlotAux] at hp
    exact ⟨hp, by intro k t hk; simp at hk⟩
  | cons t ts ih =>
    intro i best hp
    rw [bestSlotAux] at hp
    by_cases hu : used i
    · rw [if_pos hu] at hp
      obtain ⟨h1, h2⟩ := ih (i + 1) best hp
      refine ⟨h1, ?_⟩
      intro k u hk
      cases k with
      | zero => simpa using hu
      | succ k =>
        have heq : i + (k + 1) = i + 1 + k := by omega
        rw [heq]
        exact h2 k u (by simpa using hk)
    · rw [if_neg hu] at hp
      obtain ⟨h1, _⟩ := ih (i + 1) _ hp
      cases best with
      | none =>
        simp only at h1
        exact absurd h1 (by simp)
      | some pr =>
        simp only at h1
        by_cases hlt : tapDist t b < pr.2 <;> simp [hlt] at h1

/-- The beat loop produces one choice per beat. -/
theorem assignGo_length (taps : List Tap) (tol : ℚ) :
    ∀ (bs : List Beat) (used : ℕ → Bool), (assignGo taps tol bs used).length = bs.length := by
  intro bs
  induction bs with
  | nil => intro used; rfl
  | cons b bs ih =>
    intro used
    rw [assignGo]
    cases h : bestSlotAux used b taps 0 none with
    | none => simp [ih]
    | some p =>
      obtain ⟨i, d⟩ := p
      by_cases hd : d ≤ tol <;> simp [hd, ih]

/-- Every chosen slot was unused on entry to the loop. -/
theorem assignGo_choice_unused (taps : List Tap) (tol : ℚ) :
    ∀ (bs : List Beat) (used : ℕ → Bool) (i : ℕ),
      some i ∈ assignGo taps tol bs used → used i = false := by
  intro bs
  induction bs with
  | nil =>
    intro used i h
    simp [assignGo] at h
  | cons b bs ih =>
    intro used i h
    rw [assignGo] at h
    split at h
    next j d hb =>
      split at h
      next hd =>
        simp at h
        rcases h with h | h
        · subst h
          exact bestSlotAux_spec used b (fun p => used p.1 = false) taps 0 none
            (by intro p hp; simp at hp)
            (by intro k t _ hk; simpa using hk) (i, d) hb
        · have := ih (markUsed used j) i h
          unfold markUsed at this
          by_cases hij : i = j
          · rw [if_pos hij] at this
            exact absurd this (by simp)
          · rwa [if_neg hij] at this
      next hd =>
        simp at h
        exact ih used i h
    next hb =>
      simp at h
      exact ih used i h

/-- Each tap slot is consumed by at most one beat: the chosen indices are
pairwise distinct. -/
theorem assignGo_pairwise (taps : List Tap) (tol : ℚ) :
    ∀ (bs : List Beat) (used : ℕ → Bool),
      ((assignGo taps tol bs used).filterMap id).Pairwise (fun i j => i ≠ j) := by
  intro bs
  induction bs with
  | nil => intro used; simp [assignGo]
  | cons b bs ih =>
    intro used
    rw [assignGo]
    split
    next j d hb =>
      by_cases hd : d ≤ tol
      · rw [if_pos hd]
        rw [List.filterMap_cons]
        simp only [id]
        rw [List.pairwise_cons]
        refine ⟨?_, ih (markUsed used j)⟩
        intro x hx
        have hxmem : some x ∈ assignGo taps tol bs (markUsed used j) := by
          rcases List.mem_filterMap.mp hx with ⟨a, ha, hax⟩
          cases a with
          | none => simp at hax
          | some y =>
            simp at hax
            subst hax
            exact ha
        have := assignGo_choice_unused taps tol bs (markUsed used j) x hxmem
        unfold markUsed at this
        intro hjx
        rw [if_pos hjx.symm] at this
        exact absurd this (by simp)
      · rw [if_neg hd]
        simpa using ih used
    next hb =>
      simpa using ih used

/-- The loop's output satisfies the greedy-matching specification. -/
theorem assignGo_greedy (taps : List Tap) (tol : ℚ) :
    ∀ (bs : List Beat) (used : ℕ → Bool),
      GreedyMatch taps tol bs used (assignGo taps tol bs used) := by
  intro bs
  induction bs with
  | nil => intro used; exact GreedyMatch.nil used
  | cons b bs ih =>
    intro used
    rw [assignGo]
    split
    next i d hb =>
      have hsound := bestSlotAux_spec used b
        (fun p => used p.1 = false ∧ ∃ u, taps[p.1]? = some u ∧ p.2 = tapDist u b)
        taps 0 none (by intro q hq; simp at hq)
        (by
          intro k t hk huk
          exact ⟨by simpa using huk, t, by simpa using hk, rfl⟩)
        (i, d) hb
      obtain ⟨hui, t, hti, hdt⟩ := hsound
      have hmin := (bestSlotAux_le used b taps 0 none i d hb).1
      by_cases hd : d ≤ tol
      · rw [if_pos hd]
        refine GreedyMatch.matched b bs used i t _ hti hui ?_ ?_ (ih (markUsed used i))
        · rw [← hdt]; exact hd
        · intro j u hj huj
          rw [← hdt]
          exact hmin j u (by simpa using hj) (by simpa using huj)
      · rw [if_neg hd]
        refine GreedyMatch.unmatched b bs used _ ?_ (ih used)
        intro j u hj huj
        have hdu := hmin j u (by simpa using hj) (by simpa using huj)
        exact lt_of_lt_of_le (lt_of_not_le hd) hdu
    next hb =>
      obtain ⟨_, hall⟩ := bestSlotAux_none used b taps 0 none hb
      refine GreedyMatch.unmatched b bs used _ ?_ (ih used)
      intro j u hj huj
      have h0 := hall j u (by simpa using hj)
      rw [Nat.zero_add] at h0
      rw [h0] at huj
      exact absurd huj (by simp)

/-- C3: `assignNearestTaps` returns one match per beat in beat order,
consumes each tap slot at most once, follows the greedy
nearest-unused-within-tolerance rule (formalised by `GreedyMatch`,
recording `asynchrony = tap.timeMs - beat.expectedTimeMs` through
`matchOfChoice`), and on the spec's concrete block (beats at
1000/1600/2200/2800, taps at 995/1585/2225/3600, tolerance 180) yields
asynchronies -5, -15, +25 and an unmatched fourth beat. -/
theorem assignNearestTaps_claim (beats : List Beat) (taps : List Tap) (tol : ℚ) :
    ((assignNearestTaps beats taps tol).length = beats.length ∧
     ∃ choices,
       GreedyMatch taps (max 0 tol) beats (fun _ => false) choices ∧
       (choices.filterMap id).Pairwise (fun i j => i ≠ j) ∧
       assignNearestTaps beats taps tol =
         (beats.zip choices).map (fun p => matchOfChoice taps p.1 p.2)) ∧
    assignNearestTaps
      [⟨0, 1000, 1000⟩, ⟨1, 1600, 1600⟩, ⟨2, 2200, 2200⟩, ⟨3, 2800, 2800⟩]
      [⟨995, .keyboard⟩, ⟨1585, .keyboard⟩, ⟨2225, .mouse⟩, ⟨3600, .mouse⟩] 180 =
      [⟨⟨0, 1000, 1000⟩, some ⟨995, .keyboard⟩, some (-5)⟩,
       ⟨⟨1, 1600, 1600⟩, some ⟨1585, .keyboard⟩, some (-15)⟩,
       ⟨⟨2, 2200, 2200⟩, some ⟨2225, .mouse⟩, some 25⟩,
       ⟨⟨3, 2800, 2800⟩, none, none⟩] := by
  refine ⟨⟨?_, ?_⟩, ?_⟩
  · simp [assignNearestTaps, assignGo_length]
  · exact ⟨assignGo taps (max 0 tol) beats (fun _ => false),
      assignGo_greedy taps (max 0 tol) beats _,
      assignGo_pairwise taps (max 0 tol) beats _, rfl⟩
  · norm_num [assignNearestTaps, assignGo, bestSlotAux, matchOfChoice, tapDist, markUsed]

/-- `computeSsrtIntegration` is `none` on an empty RT list. -/
theorem computeSsrtIntegration_nil (s : ℚ) (msd : Option ℚ) :
    computeSsrtIntegration [] s msd = none := by
  cases msd <;> simp [computeSsrtIntegration]

/-- `computeSsrtIntegration` is `none` without a mean SSD. -/
theorem computeSsrtIntegration_noSsd (rts : List ℚ) (s : ℚ) :
    computeSsrtIntegration rts s none = none := rfl

/-- C8: degenerate metric states are `null` fields, not exceptions: with no
matched asynchrony every asynchrony statistic is `none` (and `sampleSize`
is 0), and each session metric is `none` whenever its sample set is empty
(both metric functions are total by construction, so no input throws). -/
theorem degenerate_metrics_claim :
    (∀ (ms : List BeatTapMatch) (thr : ℚ), collectAsynchronies ms = [] →
      computeAsynchronyMetrics ms thr =
        { sampleSize := 0, meanAsynchrony := none, rmsError := none, stdDev := none,
          outlierRate := none }) ∧
    (∀ trials : List TrialMetricsInput,
      ((goTrialsOf trials).length = 0 → (computeSessionMetrics trials).goCorrectRate = none) ∧
      (goReactionTimesOf trials = [] →
        (computeSessionMetrics trials).goReactionTimeMean = none ∧
        (computeSessionMetrics trials).goReactionTimeMedian = none ∧
        (computeSessionMetrics trials).ssrt = none) ∧
      ((stopTrialsOf trials).length = 0 →
        (computeSessionMetrics trials).stopSuccessRate = none ∧
        (computeSessionMetrics trials).ssrt = none) ∧
      (ssdValuesOf trials = [] →
        (computeSessionMetrics trials).meanSSD = none ∧
        (computeSessionMetrics trials).medianSSD = none ∧
        (computeSessionMetrics trials).ssrt = none)) := by
  constructor
  · intro ms thr h
    unfold computeAsynchronyMetrics
    rw [h]
    simp
  · intro trials
    refine ⟨?_, ?_, ?_, ?_⟩
    · intro h
      simp [computeSessionMetrics, h]
    · intro h
      refine ⟨?_, ?_, ?_⟩
      · simp [computeSessionMetrics, h, meanOf]
      · simp [computeSessionMetrics, h, medianOf]
      · simp only [computeSessionMetrics]
        split
        · rfl
        · rw [h]
          exact computeSsrtIntegration_nil _ _
    · intro h
      have hns : ¬ 0 < (stopTrialsOf trials).length := by omega
      refine ⟨?_, ?_⟩
      · simp [computeSessionMetrics, hns]
      · simp [computeSessionMetrics, hns]
    · intro h
      refine ⟨?_, ?_, ?_⟩
      · simp [computeSessionMetrics, h, meanOf]
      · simp [computeSessionMetrics, h, medianOf]
      · simp only [computeSessionMetrics]
        split
        · rfl
        · rw [h]
          simp [meanOf, computeSsrtIntegration]

/-- C8 witness: the empty match list and the empty trial history produce
the all-null records. -/
theorem degenerate_metrics_claim_witness :
    computeAsynchronyMetrics [] 150 =
      { sampleSize := 0, meanAsynchrony := none, rmsError := none, stdDev := none,
        outlierRate := none } ∧
    (computeSessionMetrics []).goCorrectRate = none ∧
    (computeSessionMetrics []).ssrt = none ∧
    (computeSessionMetrics []).meanSSD = none :=
  ⟨degenerate_metrics_claim.1 [] 150 rfl,
   (degenerate_metrics_claim.2 []).1 rfl,
   ((degenerate_metrics_claim.2 []).2.2.1 rfl).2,
   ((degenerate_metrics_claim.2 []).2.2.2 rfl).1⟩

end Miniverse

namespace Miniverse

/-! ### Stop-signal claims -/

/-- The source clamp `Math.min(Math.max(v, mn), mx)` agrees with the
standard clamp `max mn (min v mx)` whenever `mn ≤ mx`. -/
theorem clamp_eq_max_min (v mn mx : ℚ) (h : mn ≤ mx) :
    clamp v mn mx = max mn (min v mx) := by
  unfold clamp
  rw [max_min_distrib_left, max_comm mn v, max_eq_right h]

/-- C5: `applyStaircase` adds `step` on success and subtracts it on failure,
clamping the result into `[min, max]`. -/
theorem applyStaircase_claim (c st mn mx : ℚ) (h : mn ≤ mx) :
    applyStaircase c true st mn mx = max mn (min (c + st) mx) ∧
    applyStaircase c false st mn mx = max mn (min (c - st) mx) := by
  constructor
  · have h1 : applyStaircase c true st mn mx = clamp (c + st) mn mx := by
      unfold applyStaircase
      norm_num
    rw [h1, clamp_eq_max_min _ _ _ h]
  · have h1 : applyStaircase c false st mn mx = clamp (c - st) mn mx := by
      unfold applyStaircase
      norm_num
      ring_nf
    rw [h1, clamp_eq_max_min _ _ _ h]

/-- The index selected by `computeSsrtIntegration` (clamp the success rate
into `[0, 1]`, take the ceiling rank, clamp the zero-based index into
`[0, n - 1]`) equals the claim's formulation (rank `⌈(1 - rate) * n⌉`
clamped into `[1, n]`, minus one). -/
theorem ssrtIndex_eq (n : ℕ) (hn : 1 ≤ n) (s : ℚ) :
    (min ((n : ℤ) - 1) (max 0 (⌈(1 - clamp s 0 1) * (n : ℚ)⌉ - 1))).toNat
      = (max 1 (min (n : ℤ) ⌈(1 - s) * (n : ℚ)⌉)).toNat - 1 := by
  rcases le_or_lt s 0 with hs | hs
  · have hc : clamp s 0 1 = 0 := by
      unfold clamp
      rw [max_eq_right hs, min_eq_left (by norm_num : (0:ℚ) ≤ 1)]
    have hrc : ⌈(1 - clamp s 0 1) * (n : ℚ)⌉ = (n : ℤ) := by
      rw [hc, sub_zero, one_mul, Int.ceil_natCast]
    have hr : (n : ℤ) ≤ ⌈(1 - s) * (n : ℚ)⌉ := by
      have h1 : (n : ℚ) ≤ (1 - s) * (n : ℚ) := by nlinarith [Nat.cast_nonneg (α := ℚ) n]
      calc (n : ℤ) = ⌈(n : ℚ)⌉ := (Int.ceil_natCast n).symm
        _ ≤ _ := Int.ceil_mono h1
    rw [hrc]
    omega
  · rcases le_or_lt s 1 with hs1 | hs1
    · have hc : clamp s 0 1 = s := by
        unfold clamp
        rw [max_eq_left hs.le, min_eq_left hs1]
      have h0 : 0 ≤ ⌈(1 - s) * (n : ℚ)⌉ :=
        Int.ceil_nonneg (by nlinarith [Nat.cast_nonneg (α := ℚ) n])
      have h1 : ⌈(1 - s) * (n : ℚ)⌉ ≤ (n : ℤ) := by
        rw [Int.ceil_le]
        push_cast
        nlinarith [Nat.cast_nonneg (α := ℚ) n]
      rw [hc]
      omega
    · have hc : clamp s 0 1 = 1 := by
        unfold clamp
        rw [max_eq_left (by linarith : (0:ℚ) ≤ s), min_eq_right hs1.le]
      have hrc : ⌈(1 - clamp s 0 1) * (n : ℚ)⌉ = 0 := by
        rw [hc, sub_self, zero_mul, Int.ceil_zero]
      have hr : ⌈(1 - s) * (n : ℚ)⌉ ≤ 0 := by
        rw [show (0 : ℤ) = ⌈(0 : ℚ)⌉ from Int.ceil_zero.symm]
        refine Int.ceil_mono ?_
        nlinarith [Nat.cast_nonneg (α := ℚ) n]
      rw [hrc]
      omega

/-- C4: `computeSsrtIntegration` returns `none` exactly when the RT list is
empty or the mean SSD is absent, and otherwise returns the RT at 1-indexed
rank `⌈(1 - stopSuccessRate) * n⌉` clamped into `[1, n]`, minus the mean
SSD.  (Stated for all lists; sortedness of the input is not needed for
this index computation.) -/
theorem computeSsrtIntegration_claim (rts : List ℚ) (s : ℚ) (msd : Option ℚ) :
    (computeSsrtIntegration rts s msd = none ↔ rts = [] ∨ msd = none) ∧
    (∀ m : ℚ, msd = some m → rts ≠ [] →
      computeSsrtIntegration rts s msd =
        some (rts.getD ((max 1 (min (rts.length : ℤ) ⌈(1 - s) * (rts.length : ℚ)⌉)).toNat - 1) 0
          - m)) := by
  constructor
  · cases msd with
    | none => simp [computeSsrtIntegration]
    | some m =>
      by_cases hrts : rts = []
      · subst hrts
        simp [computeSsrtIntegration]
      · have hlen : rts.length ≠ 0 := fun h => hrts (List.length_eq_zero.mp h)
        simp [computeSsrtIntegration, hlen, hrts]
  · intro m hm hne
    subst hm
    have hlen : rts.length ≠ 0 := fun h => hne (List.length_eq_zero.mp h)
    have hn : 1 ≤ rts.length := Nat.one_le_iff_ne_zero.mpr hlen
    simp only [computeSsrtIntegration, if_neg hlen]
    rw [ssrtIndex_eq rts.length hn s]

/-- C4 witness: six sorted Go RTs, stop success rate 1/2, mean SSD 325
yield SSRT 65. -/
theorem computeSsrtIntegration_claim_witness :
    computeSsrtIntegration [350, 370, 390, 410, 430, 450] (1/2) (some 325) = some 65 := by
  rw [(computeSsrtIntegration_claim [350, 370, 390, 410, 430, 450] (1/2) (some 325)).2 325 rfl
    (List.cons_ne_nil _ _)]
  have hc : ⌈(1 - 1/2 : ℚ) * (([350, 370, 390, 410, 430, 450] : List ℚ).length : ℚ)⌉ = 3 := by
    rw [show (([350, 370, 390, 410, 430, 450] : List ℚ).length : ℚ) = 6 from by norm_num]
    rw [Int.ceil_eq_iff]
    norm_num
  rw [hc]
  norm_num [List.getD, show Int.toNat 3 = 3 from rfl]

/-- C7: `rng.int` throws exactly on a non-finite bound; on finite bounds
`min`/`max` are reduced by `ceil`/`floor`, an equal reduced pair is
returned with the generator state untouched, and otherwise the result is
`lower + ⌊next() * (upper - lower + 1)⌋` with exactly one generator step,
which lies in `[lower, upper]` whenever that range is non-empty. -/
theorem rngInt_claim (mn mx : JsNumber) (s : ℕ) :
    ((∃ e, rngInt mn mx s = .error e) ↔ (mn.isFinite = false ∨ mx.isFinite = false)) ∧
    (∀ a b : ℚ, mn = .num a → mx = .num b → a ≤ b →
      (⌈a⌉ = ⌊b⌋ → rngInt mn mx s = .ok (⌈a⌉, s)) ∧
      (⌈a⌉ ≠ ⌊b⌋ →
        rngInt mn mx s =
          .ok (⌊(rngNext s).1 * ((⌊b⌋ : ℚ) - (⌈a⌉ : ℚ) + 1)⌋ + ⌈a⌉, (rngNext s).2) ∧
        (⌈a⌉ ≤ ⌊b⌋ → ∀ r s2, rngInt mn mx s = .ok (r, s2) → ⌈a⌉ ≤ r ∧ r ≤ ⌊b⌋))) := by
  constructor
  · cases mn <;> cases mx <;> simp [rngInt, JsNumber.isFinite]
  · intro a b ha hb hab
    subst ha
    subst hb
    have hmin : min a b = a := min_eq_left hab
    have hmax : max a b = b := max_eq_right hab
    constructor
    · intro he
      simp only [rngInt, intQ, hmin, hmax, if_pos he]
    · intro hne
      have hform : rngInt (.num a) (.num b) s =
          .ok (⌊(rngNext s).1 * ((⌊b⌋ : ℚ) - (⌈a⌉ : ℚ) + 1)⌋ + ⌈a⌉, (rngNext s).2) := by
        simp only [rngInt, intQ, hmin, hmax, if_neg hne]
      refine ⟨hform, ?_⟩
      intro hle r s2 hok
      rw [hform] at hok
      have hr : r = ⌊(rngNext s).1 * ((⌊b⌋ : ℚ) - (⌈a⌉ : ℚ) + 1)⌋ + ⌈a⌉ := by
        have := Except.ok.inj hok
        exact (Prod.mk.injEq _ _ _ _ ▸ this).1.symm
      have hlt : ⌈a⌉ < ⌊b⌋ := lt_of_le_of_ne hle hne
      have hspan : (0 : ℚ) < (⌊b⌋ : ℚ) - (⌈a⌉ : ℚ) + 1 := by
        have : (⌈a⌉ : ℚ) < (⌊b⌋ : ℚ) := by exact_mod_cast hlt
        linarith
      have hfl0 : 0 ≤ ⌊(rngNext s).1 * ((⌊b⌋ : ℚ) - (⌈a⌉ : ℚ) + 1)⌋ :=
        Int.floor_nonneg.mpr (mul_nonneg (rngNext_fst_nonneg s) hspan.le)
      have hflub : ⌊(rngNext s).1 * ((⌊b⌋ : ℚ) - (⌈a⌉ : ℚ) + 1)⌋ < ⌊b⌋ - ⌈a⌉ + 1 := by
        rw [Int.floor_lt]
        push_cast
        calc (rngNext s).1 * ((⌊b⌋ : ℚ) - (⌈a⌉ : ℚ) + 1)
            < 1 * ((⌊b⌋ : ℚ) - (⌈a⌉ : ℚ) + 1) :=
              mul_lt_mul_of_pos_right (rngNext_fst_lt_one s) hspan
          _ = (⌊b⌋ : ℚ) - (⌈a⌉ : ℚ) + 1 := one_mul _
      omega

/-- C7 witness: bounds `1.5` and `6.5` reduce to `2` and `6`; the result is
`2 + ⌊next() * 5⌋` after one generator step. -/
theorem rngInt_claim_witness :
    rngInt (.num (3/2)) (.num (13/2)) 0 =
      .ok (⌊(rngNext 0).1 * ((⌊(13/2 : ℚ)⌋ : ℚ) - (⌈(3/2 : ℚ)⌉ : ℚ) + 1)⌋ + ⌈(3/2 : ℚ)⌉,
        (rngNext 0).2) :=
  (((rngInt_claim (.num (3/2)) (.num (13/2)) 0).2 (3/2) (13/2) rfl rfl
    (by norm_num)).2 (by
      have h1 : ⌈(3/2 : ℚ)⌉ = 2 := by
        rw [Int.ceil_eq_iff]
        norm_num
      have h2 : ⌊(13/2 : ℚ)⌋ = 6 := by norm_num
      rw [h1, h2]
      norm_num)).1

/-- C10: reversed finite bounds are swapped internally, not rejected:
`int(min, max)` with `min > max` computes exactly what `int(max, min)`
computes from the same state, and never errors. -/
theorem rngInt_swapped_claim (a b : ℚ) (s : ℕ) (h : b < a) :
    rngInt (.num a) (.num b) s = rngInt (.num b) (.num a) s ∧
    ∀ e, rngInt (.num a) (.num b) s ≠ .error e := by
  constructor
  · simp only [rngInt, intQ, min_comm a b, max_comm a b]
  · intro e hc
    simp only [rngInt] at hc
    exact Except.noConfusion hc

/-- C10 witness: `int(5, 2)` and `int(2, 5)` agree from state 0. -/
theorem rngInt_swapped_claim_witness :
    rngInt (.num 5) (.num 2) 0 = rngInt (.num 2) (.num 5) 0 :=
  (rngInt_swapped_claim 5 2 0 (by norm_num)).1

/-- C5 witness: the four concrete staircase evaluations from the spec. -/
theorem applyStaircase_claim_witness :
    applyStaircase 250 true 50 50 900 = 300 ∧
    applyStaircase 250 false 50 50 900 = 200 ∧
    applyStaircase 880 true 50 50 900 = 900 ∧
    applyStaircase 60 false 50 50 900 = 50 := by
  refine ⟨?_, ?_, ?_, ?_⟩
  · rw [(applyStaircase_claim 250 50 50 900 (by norm_num)).1]; norm_num
  · rw [(applyStaircase_claim 250 50 50 900 (by norm_num)).2]; norm_num
  · rw [(applyStaircase_claim 880 50 50 900 (by norm_num)).1]; norm_num
  · rw [(applyStaircase_claim 60 50 50 900 (by norm_num)).2]; norm_num

end Miniverse

namespace Miniverse

/-! ### Memory-matrix claims -/

/-- A `next()`-derived list index is always in range. -/
theorem q_floor_index_lt (v : ℚ) (n : ℕ) (h0 : 0 ≤ v) (h1 : v < 1) (hn : 0 < n) :
    (⌊v * (n : ℚ)⌋).toNat < n := by
  have hlt : ⌊v * (n : ℚ)⌋ < (n : ℤ) := by
    rw [Int.floor_lt]
    push_cast
    calc v * (n : ℚ) < 1 * (n : ℚ) := mul_lt_mul_of_pos_right h1 (by exact_mod_cast hn)
      _ = (n : ℚ) := one_mul _
  have hge : 0 ≤ ⌊v * (n : ℚ)⌋ := Int.floor_nonneg.mpr (mul_nonneg h0 (by positivity))
  omega

/-- The pool pick lands inside a non-empty pool. -/
theorem chooseFromPool_mem (pool : List ℕ) (s : ℕ) (h : pool ≠ []) :
    (chooseFromPool pool s).1 ∈ pool := by
  have hlen : 0 < pool.length := List.length_pos.mpr h
  have hidx : (⌊(rngNext s).1 * (pool.length : ℚ)⌋).toNat < pool.length :=
    q_floor_index_lt _ _ (rngNext_fst_nonneg s) (rngNext_fst_lt_one s) hlen
  show pool.getD ((⌊(rngNext s).1 * (pool.length : ℚ)⌋).toNat) (pool.getD 0 0) ∈ pool
  rw [List.getD_eq_getElem _ _ hidx]
  exact List.getElem_mem hidx

/-- Membership in the remaining pool: in range and not yet chosen. -/
theorem mem_patternRemaining (gridSize : ℕ) (chosen : List MemoryCellPosition) (c : ℕ) :
    c ∈ patternRemaining gridSize chosen ↔
      c < gridSize * gridSize ∧ c ∉ chosen.map (fun e => e.index) := by
  unfold patternRemaining
  rw [List.mem_filter, List.mem_range]
  simp [List.any_eq_true, List.mem_map]

/-- The drawing pool is a subset of the remaining pool. -/
theorem patternPool_subset (gridSize : ℕ) (avoid : Bool) (chosen : List MemoryCellPosition) :
    patternPool gridSize avoid chosen ⊆ patternRemaining gridSize chosen := by
  unfold patternPool
  split
  · split
    · exact fun x hx => hx
    · exact fun x hx => List.mem_of_mem_filter hx
  · exact fun x hx => hx

/-- The drawing pool is non-empty whenever something remains. -/
theorem patternPool_ne_nil (gridSize : ℕ) (avoid : Bool) (chosen : List MemoryCellPosition)
    (h : patternRemaining gridSize chosen ≠ []) :
    patternPool gridSize avoid chosen ≠ [] := by
  unfold patternPool
  split
  · split
    next hemp => exact h
    next hemp => simpa [List.isEmpty_iff] using hemp
  · exact h

/-- Loop invariant of generatePattern's selection loop: starting from a
duplicate-free, in-range selection with exactly enough fuel, the loop
completes the selection to `patternLength` distinct in-range cells. -/
theorem patternLoop_spec (gridSize patternLength : ℕ) (avoid : Bool)
    (hpl : patternLength ≤ gridSize * gridSize) :
    ∀ (fuel : ℕ) (chosen : List MemoryCellPosition) (s : ℕ),
      (chosen.map (fun e => e.index)).Nodup →
      (∀ i ∈ chosen.map (fun e => e.index), i < gridSize * gridSize) →
      chosen.length + fuel = patternLength →
      ((patternLoop gridSize patternLength avoid fuel chosen s).1.map
        (fun e => e.index)).Nodup ∧
      (∀ i ∈ (patternLoop gridSize patternLength avoid fuel chosen s).1.map
        (fun e => e.index), i < gridSize * gridSize) ∧
      (patternLoop gridSize patternLength avoid fuel chosen s).1.length = patternLength := by
  intro fuel
  induction fuel with
  | zero =>
    intro chosen s hnd hbd hlen
    rw [patternLoop]
    refine ⟨hnd, hbd, ?_⟩
    show chosen.length = patternLength
    omega
  | succ fuel ih =>
    intro chosen s hnd hbd hlen
    rw [patternLoop]
    have hcl : chosen.length < patternLength := by omega
    rw [if_pos hcl]
    have hrem_ne : patternRemaining gridSize chosen ≠ [] := by
      intro hempty
      have hsub : List.range (gridSize * gridSize) ⊆ chosen.map (fun e => e.index) := by
        intro c hc
        by_contra hnc
        have hmem : c ∈ patternRemaining gridSize chosen :=
          (mem_patternRemaining gridSize chosen c).mpr ⟨List.mem_range.mp hc, hnc⟩
        rw [hempty] at hmem
        exact absurd hmem (List.not_mem_nil c)
      have hle := (List.subperm_of_subset (List.nodup_range _) hsub).length_le
      rw [List.length_range, List.length_map] at hle
      omega
    rw [if_neg (by simpa [List.isEmpty_iff] using hrem_ne)]
    have hpick : (chooseFromPool (patternPool gridSize avoid chosen) s).1 ∈
        patternPool gridSize avoid chosen :=
      chooseFromPool_mem _ s (patternPool_ne_nil gridSize avoid chosen hrem_ne)
    have hpickrem := patternPool_subset gridSize avoid chosen hpick
    obtain ⟨hclt, hcnotmem⟩ := (mem_patternRemaining gridSize chosen _).mp hpickrem
    refine ih (chosen ++ [indexToPosition (chooseFromPool (patternPool gridSize avoid chosen) s).1 gridSize]) _ ?_ ?_ ?_
    · rw [List.map_append]
      rw [List.nodup_append]
      refine ⟨hnd, List.nodup_singleton _, ?_⟩
      intro a ha hb
      simp only [List.map_cons, List.map_nil, List.mem_singleton] at hb
      rw [hb] at ha
      exact hcnotmem ha
    · intro i hi
      rw [List.map_append, List.mem_append] at hi
      rcases hi with hi | hi
      · exact hbd i hi
      · simp only [List.map_cons, List.map_nil, List.mem_singleton] at hi
        rw [hi]
        exact hclt
    · rw [List.length_append]
      simp only [List.length_singleton]
      omega

/-- C6: for a positive grid size, a positive pattern length within the grid
capacity and a positive exposure, `generatePattern` succeeds and its
`order` is a list of exactly `patternLength` pairwise-distinct indices in
`[0, gridSize^2)` — for every rng state and either adjacency setting. -/
theorem generatePattern_claim (opts : GeneratePatternOptions) (s : ℕ)
    (h1 : 0 < opts.gridSize) (h2 : 0 < opts.patternLength)
    (h3 : opts.patternLength ≤ opts.gridSize * opts.gridSize) (h4 : 0 < opts.exposureMs) :
    ∃ p, generatePattern opts s = .ok p ∧
      p.order.length = opts.patternLength ∧
      p.order.Nodup ∧
      ∀ i ∈ p.order, i < opts.gridSize * opts.gridSize := by
  obtain ⟨hnd, hbd, hlen⟩ := patternLoop_spec opts.gridSize opts.patternLength
    opts.avoidAdjacency h3 opts.patternLength [] s (by simp) (by simp) (by simp)
  unfold generatePattern
  rw [if_neg (Nat.pos_iff_ne_zero.mp h1), if_neg (Nat.pos_iff_ne_zero.mp h2),
    if_neg (not_lt.mpr h3), if_neg (not_le.mpr h4)]
  rw [if_neg (by simp [hlen])]
  refine ⟨⟨(patternLoop opts.gridSize opts.patternLength opts.avoidAdjacency
        opts.patternLength [] s).1,
      (patternLoop opts.gridSize opts.patternLength opts.avoidAdjacency
        opts.patternLength [] s).1.map (fun entry => entry.index)⟩, rfl, ?_, hnd, hbd⟩
  rw [List.length_map]
  exact hlen

/-- C6 witness: a 3x3 grid, pattern length 4, exposure 500 ms, adjacency
avoidance on, rng state 1. -/
theorem generatePattern_claim_witness :
    ∃ p, generatePattern ⟨3, 4, 500, true⟩ 1 = .ok p ∧
      p.order.length = 4 ∧ p.order.Nodup ∧ ∀ i ∈ p.order, i < 3 * 3 :=
  generatePattern_claim _ 1 (by norm_num) (by norm_num) (by norm_num) (by norm_num)

end Miniverse

namespace Miniverse

/-! ### Shuffle permutation lemmas -/

/-- Moving an element out of position `j` of a list (writing `x` there)
is a permutation of putting `x` at the head. -/
theorem cons_get_set_perm (l : List α) (j : ℕ) (x : α) (h : j < l.length) :
    List.Perm (l[j] :: l.set j x) (x :: l) := by
  induction l generalizing j with
  | nil => simp at h
  | cons a as ih =>
    cases j with
    | zero => simpa using List.Perm.swap x a as
    | succ j =>
      have hj : j < as.length := by simpa using h
      have step1 : List.Perm (as[j] :: a :: as.set j x) (a :: as[j] :: as.set j x) :=
        List.Perm.swap a (as[j]) _
      have step2 : List.Perm (a :: as[j] :: as.set j x) (a :: x :: as) := (ih j hj).cons a
      have step3 : List.Perm (a :: x :: as) (x :: a :: as) := List.Perm.swap x a as
      simpa using (step1.trans step2).trans step3

/-- The simultaneous two-position swap is a permutation. -/
theorem set_set_perm : ∀ (l : List α) (i j : ℕ) (hi : i < l.length) (hj : j < l.length),
    List.Perm ((l.set i l[j]).set j l[i]) l := by
  intro l
  induction l with
  | nil => intro i j hi _; simp at hi
  | cons a as ih =>
    intro i j hi hj
    cases i with
    | zero =>
      cases j with
      | zero => simp
      | succ j =>
        have hj2 : j < as.length := by simpa using hj
        simpa using cons_get_set_perm as j a hj2
    | succ i =>
      cases j with
      | zero =>
        have hi2 : i < as.length := by simpa using hi
        simpa using cons_get_set_perm as i a hi2
      | succ j =>
        have hi2 : i < as.length := by simpa using hi
        have hj2 : j < as.length := by simpa using hj
        simpa using (ih i j hi2 hj2).cons a

/-- `listSwap` permutes its input. -/
theorem listSwap_perm (l : List α) (i j : ℕ) : List.Perm (listSwap l i j) l := by
  unfold listSwap
  split
  next x y hx hy =>
    obtain ⟨hi, hxe⟩ := List.get?_eq_some.mp hx
    obtain ⟨hj, hye⟩ := List.get?_eq_some.mp hy
    subst hxe
    subst hye
    simpa [List.get_eq_getElem] using set_set_perm l i j hi hj
  next => exact List.Perm.refl l

/-- Every state of the Fisher-Yates loop permutes the list. -/
theorem fisherAux_perm : ∀ (n : ℕ) (l : List α) (s : ℕ), List.Perm (fisherAux n (l, s)).1 l := by
  intro n
  induction n with
  | zero => intro l s; exact List.Perm.refl l
  | succ n ih =>
    intro l s
    rw [fisherAux]
    exact (ih _ _).trans (listSwap_perm l (n + 1) _)

/-- `rng.shuffle` returns a permutation of its input. -/
theorem rngShuffle_perm (values : List α) (s : ℕ) : List.Perm (rngShuffle values s).1 values :=
  fisherAux_perm _ _ _

/-! ### Distractor construction lemmas -/

/-- A candidate accepted inside the retry loop fails the rule. -/
theorem distractorAttemptLoop_pred (o : GenerateGridOptions) :
    ∀ (n s : ℕ) (c : Combo) (s2 : ℕ),
      distractorAttemptLoop o n s = (some c, s2) → o.rule.predicate c = false := by
  intro n
  induction n with
  | zero =>
    intro s c s2 h
    rw [distractorAttemptLoop] at h
    simp at h
  | succ n ih =>
    intro s c s2 h
    rw [distractorAttemptLoop] at h
    split at h
    next hpred =>
      cases h
      exact hpred
    next hpred => exact ih _ c s2 h

/-- Every distractor produced by `buildDistractor` fails the rule. -/
theorem buildDistractor_pred (o : GenerateGridOptions) (s : ℕ) (c : Combo) (s2 : ℕ)
    (h : buildDistractor o s = .ok (c, s2)) : o.rule.predicate c = false := by
  unfold buildDistractor at h
  split at h
  next c0 s0 heq =>
    cases h
    exact distractorAttemptLoop_pred o 40 s _ _ heq
  next s0 heq =>
    split at h
    next hp => exact absurd h (by simp)
    next hp =>
      cases h
      simpa using hp

/-- The fill loop produces exactly the requested number of distractors,
each failing the rule. -/
theorem fillDistractors_spec (o : GenerateGridOptions) :
    ∀ (n s : ℕ) (res : List Combo) (s2 : ℕ),
      fillDistractors o n s = .ok (res, s2) →
      res.length = n ∧ ∀ c ∈ res, o.rule.predicate c = false := by
  intro n
  induction n with
  | zero =>
    intro s res s2 h
    rw [fillDistractors] at h
    cases h
    exact ⟨rfl, by simp⟩
  | succ n ih =>
    intro s res s2 h
    rw [fillDistractors] at h
    split at h
    next e heq => exact absurd h (by simp)
    next c s3 heq =>
      split at h
      next e heq2 => exact absurd h (by simp)
      next p heq2 =>
        cases h
        obtain ⟨hlen, hall⟩ := ih _ _ _ heq2
        refine ⟨by simp [hlen], ?_⟩
        intro x hx
        rcases List.mem_cons.mp hx with hx | hx
        · subst hx
          exact buildDistractor_pred o s _ _ heq
        · exact hall x hx

/-- Every candidate target combination satisfies the rule, provided the
supplied exemplars do (the source never checks the exemplars). -/
theorem mem_availableTargetCombos_pred (o : GenerateGridOptions)
    (hsample : ∀ c ∈ o.rule.sampleTargets, o.rule.predicate c = true) :
    ∀ combo ∈ availableTargetCombos o, o.rule.predicate combo = true := by
  intro combo h
  unfold availableTargetCombos at h
  split at h
  · exact hsample combo h
  · rw [List.mem_flatMap] at h
    obtain ⟨color, _, hmem⟩ := h
    exact List.of_mem_filter hmem

/-- The target block has the resolved target count as its length. -/
theorem targetCells_length (o : GenerateGridOptions) (tc : ℕ) :
    (targetCells o tc).length = tc := by
  simp [targetCells]

/-- Target cells are flagged and drawn from the candidate combinations. -/
theorem mem_targetCells (o : GenerateGridOptions) (tc : ℕ)
    (hne : availableTargetCombos o ≠ []) (pc : ProvisionalCell)
    (h : pc ∈ targetCells o tc) :
    pc.isTarget = true ∧ ∃ combo ∈ availableTargetCombos o,
      pc.color = combo.color ∧ pc.shape = combo.shape := by
  unfold targetCells at h
  rw [List.mem_map] at h
  obtain ⟨index, _, heq⟩ := h
  have hlen : 0 < (availableTargetCombos o).length := List.length_pos.mpr hne
  have hmod : index % (availableTargetCombos o).length < (availableTargetCombos o).length :=
    Nat.mod_lt _ hlen
  subst heq
  refine ⟨rfl, (availableTargetCombos o).getD (index % (availableTargetCombos o).length) default,
    ?_, rfl, rfl⟩
  rw [List.getD_eq_getElem _ _ hmod]
  exact List.getElem_mem hmod

/-- Every target cell is flagged as a target. -/
theorem targetCells_isTarget (o : GenerateGridOptions) (tc : ℕ) :
    ∀ pc ∈ targetCells o tc, pc.isTarget = true := by
  intro pc h
  unfold targetCells at h
  rw [List.mem_map] at h
  obtain ⟨i, _, heq⟩ := h
  subst heq
  rfl

/-- The target block counts exactly `tc` targets. -/
theorem targetCells_countP (o : GenerateGridOptions) (tc : ℕ) :
    (targetCells o tc).countP (fun c => c.isTarget) = tc := by
  have h1 : (targetCells o tc).countP (fun c => c.isTarget) = (targetCells o tc).length :=
    List.countP_eq_length.mpr (fun a ha => by
      simpa using targetCells_isTarget o tc a ha)
  rw [h1, targetCells_length]

/-! ### Target count bounds -/

/-- A `next()`-scaled floor over an integer span stays within the span. -/
theorem floor_scaled_bounds (v : ℚ) (h0 : 0 ≤ v) (h1 : v < 1) (lo up : ℤ) (hle : lo ≤ up) :
    0 ≤ ⌊v * ((up : ℚ) - (lo : ℚ) + 1)⌋ ∧ ⌊v * ((up : ℚ) - (lo : ℚ) + 1)⌋ ≤ up - lo := by
  have hspan : (0 : ℚ) < (up : ℚ) - (lo : ℚ) + 1 := by
    have : (lo : ℚ) ≤ (up : ℚ) := by exact_mod_cast hle
    linarith
  constructor
  · exact Int.floor_nonneg.mpr (mul_nonneg h0 hspan.le)
  · have hlt : ⌊v * ((up : ℚ) - (lo : ℚ) + 1)⌋ < up - lo + 1 := by
      rw [Int.floor_lt]
      push_cast
      calc v * ((up : ℚ) - (lo : ℚ) + 1) < 1 * ((up : ℚ) - (lo : ℚ) + 1) :=
            mul_lt_mul_of_pos_right h1 hspan
        _ = _ := one_mul _
    omega

/-- `intQ` on natural bounds `a ≤ b` yields a value in `[a, b]`. -/
theorem intQ_nat_mem (a b : ℕ) (hab : a ≤ b) (s : ℕ) :
    (a : ℤ) ≤ (intQ (a : ℚ) (b : ℚ) s).1 ∧ (intQ (a : ℚ) (b : ℚ) s).1 ≤ (b : ℤ) := by
  have hlo : ⌈min (a : ℚ) (b : ℚ)⌉ = ((a : ℕ) : ℤ) := by
    rw [min_eq_left (by exact_mod_cast hab : (a : ℚ) ≤ (b : ℚ)), Int.ceil_natCast]
  have hup : ⌊max (a : ℚ) (b : ℚ)⌋ = ((b : ℕ) : ℤ) := by
    rw [max_eq_right (by exact_mod_cast hab : (a : ℚ) ≤ (b : ℚ)), Int.floor_natCast]
  unfold intQ
  rw [hlo, hup]
  split
  next heq =>
    refine ⟨le_refl _, le_of_eq heq⟩
  next hne =>
    obtain ⟨hf0, hfle⟩ := floor_scaled_bounds (rngNext s).1 (rngNext_fst_nonneg s)
      (rngNext_fst_lt_one s) ((a : ℕ) : ℤ) ((b : ℕ) : ℤ) (by exact_mod_cast hab)
    constructor
    · exact le_add_of_nonneg_left hf0
    · have : ⌊(rngNext s).1 * ((((b : ℕ) : ℤ) : ℚ) - (((a : ℕ) : ℤ) : ℚ) + 1)⌋ +
          ((a : ℕ) : ℤ) ≤ ((b : ℕ) : ℤ) := by omega
      exact this

/-- The resolved target count lies in `[1, totalCells]` for a positive
grid size. -/
theorem targetCountStep_bounds (o : GenerateGridOptions) (s : ℕ) (hsz : 0 < o.size) :
    1 ≤ (targetCountStep o s).1 ∧ (targetCountStep o s).1 ≤ totalCellsOf o := by
  have htot : 1 ≤ totalCellsOf o := by
    have := Nat.mul_le_mul hsz hsz
    simpa [totalCellsOf] using this
  have hmax_le : clampedMaxOf o ≤ totalCellsOf o := by
    unfold clampedMaxOf
    exact max_le htot (min_le_right _ _)
  have hmax_ge : 1 ≤ clampedMaxOf o := le_max_left _ _
  have hmin_le : clampedMinOf o ≤ clampedMaxOf o := min_le_right _ _
  have hmin_ge : 1 ≤ clampedMinOf o := le_min (le_max_right _ _) hmax_ge
  unfold targetCountStep
  split
  next heq => exact ⟨hmin_ge, le_trans hmin_le hmax_le⟩
  next hne =>
    obtain ⟨hlo2, hup2⟩ := intQ_nat_mem (clampedMinOf o) (clampedMaxOf o) hmin_le s
    constructor
    · show 1 ≤ (intQ (clampedMinOf o : ℚ) (clampedMaxOf o : ℚ) s).1.toNat
      omega
    · show (intQ (clampedMinOf o : ℚ) (clampedMaxOf o : ℚ) s).1.toNat ≤ totalCellsOf o
      omega

end Miniverse

namespace Miniverse

/-! ### gridCells lemmas and the generateGrid claims -/

/-- Shuffling and id assignment preserve the target count. -/
theorem gridCells_countP (prov : List ProvisionalCell) (s : ℕ) :
    (gridCells prov s).countP (fun c => c.isTarget) =
      prov.countP (fun c => c.isTarget) := by
  unfold gridCells
  rw [List.countP_map]
  have h2 : ((rngShuffle prov s).1.enum).countP
      ((fun c : Cell => c.isTarget) ∘ (fun p : ℕ × ProvisionalCell =>
        Cell.mk ("cell-" ++ toString p.1) p.2.shape p.2.color p.2.isTarget)) =
      ((rngShuffle prov s).1.enum).countP
        ((fun c : ProvisionalCell => c.isTarget) ∘ Prod.snd) := rfl
  rw [h2, ← List.countP_map, List.enum_map_snd]
  exact (rngShuffle_perm prov s).countP_eq _

/-- Every returned cell carries the traits of some provisional cell. -/
theorem mem_gridCells (prov : List ProvisionalCell) (s : ℕ) (cell : Cell)
    (h : cell ∈ gridCells prov s) :
    ∃ pc ∈ prov, cell.color = pc.color ∧ cell.shape = pc.shape ∧
      cell.isTarget = pc.isTarget := by
  unfold gridCells at h
  rw [List.mem_map] at h
  obtain ⟨p, hp, heq⟩ := h
  refine ⟨p.2, ?_, ?_⟩
  · have hsnd : p.2 ∈ (rngShuffle prov s).1.enum.map Prod.snd :=
      List.mem_map_of_mem Prod.snd hp
    rw [List.enum_map_snd] at hsnd
    exact ((rngShuffle_perm prov s).mem_iff).mp hsnd
  · subst heq
    exact ⟨rfl, rfl, rfl⟩

/-- The cell list has the provisional length. -/
theorem gridCells_length (prov : List ProvisionalCell) (s : ℕ) :
    (gridCells prov s).length = prov.length := by
  unfold gridCells
  rw [List.length_map, List.enum_length]
  exact (rngShuffle_perm prov s).length_eq

/-- The ids are the sequential strings in post-shuffle order. -/
theorem gridCells_ids (prov : List ProvisionalCell) (s : ℕ) :
    (gridCells prov s).map (fun c => c.id) =
      (List.range prov.length).map (fun i => "cell-" ++ toString i) := by
  unfold gridCells
  rw [List.map_map]
  have hcomp : ((fun c : Cell => c.id) ∘ (fun p : ℕ × ProvisionalCell =>
      Cell.mk ("cell-" ++ toString p.1) p.2.shape p.2.color p.2.isTarget)) =
      (fun i : ℕ => "cell-" ++ toString i) ∘ Prod.fst := rfl
  rw [hcomp, ← List.map_map, List.enum_map_fst, (rngShuffle_perm prov s).length_eq]

/-- Inversion of a successful `generateGrid` run. -/
theorem generateGrid_ok_inv (o : GenerateGridOptions) (s : ℕ) (g : GeneratedGrid)
    (hok : generateGrid o s = .ok g) :
    o.size ≠ 0 ∧ availableTargetCombos o ≠ [] ∧
    ∃ distractors s2,
      fillDistractors o (totalCellsOf o - (targetCountStep o s).1)
        (targetCountStep o s).2 = .ok (distractors, s2) ∧
      g = { size := o.size
            cells := gridCells (targetCells o (targetCountStep o s).1 ++
              distractors.map (fun c => ProvisionalCell.mk c.color c.shape false)) s2
            targetCount := (targetCountStep o s).1 } := by
  unfold generateGrid at hok
  split at hok
  · exact absurd hok (by simp)
  rename_i h1
  split at hok
  · exact absurd hok (by simp)
  rename_i h2
  split at hok
  · exact absurd hok (by simp)
  rename_i h3
  split at hok
  next e heq => exact absurd hok (by simp)
  next p heq =>
    refine ⟨h1, h3, p.1, p.2, by simpa using heq, ?_⟩
    exact (Except.ok.inj hok).symm

/-- C1 (amended): whenever `generateGrid` succeeds and every supplied
exemplar in `rule.sampleTargets` satisfies the predicate, the returned
grid has exactly `targetCount` cells with `isTarget = true`, every target
cell satisfies the rule, and every non-target cell fails it. -/
theorem generateGrid_target_invariant (o : GenerateGridOptions) (s : ℕ) (g : GeneratedGrid)
    (hsample : ∀ c ∈ o.rule.sampleTargets, o.rule.predicate c = true)
    (hok : generateGrid o s = .ok g) :
    g.cells.countP (fun c => c.isTarget) = g.targetCount ∧
    ∀ cell ∈ g.cells,
      (cell.isTarget = true → o.rule.predicate ⟨cell.color, cell.shape⟩ = true) ∧
      (cell.isTarget = false → o.rule.predicate ⟨cell.color, cell.shape⟩ = false) := by
  obtain ⟨hsz, hcombos, distractors, s2, hfill, hg⟩ := generateGrid_ok_inv o s g hok
  obtain ⟨hdlen, hdpred⟩ := fillDistractors_spec o _ _ _ _ hfill
  subst hg
  constructor
  · show (gridCells (targetCells o (targetCountStep o s).1 ++
      distractors.map (fun c => ProvisionalCell.mk c.color c.shape false)) s2).countP
        (fun c => c.isTarget) = (targetCountStep o s).1
    rw [gridCells_countP, List.countP_append, targetCells_countP]
    have hzero : (distractors.map (fun c => ProvisionalCell.mk c.color c.shape false)).countP
        (fun c => c.isTarget) = 0 := by
      rw [List.countP_eq_zero]
      intro pc hpc
      rw [List.mem_map] at hpc
      obtain ⟨c, _, heq⟩ := hpc
      subst heq
      simp
    rw [hzero]
    omega
  · intro cell hcell
    obtain ⟨pc, hpc, hcol, hsh, htg⟩ := mem_gridCells _ s2 cell hcell
    rw [List.mem_append] at hpc
    rcases hpc with hpc | hpc
    · obtain ⟨hT, combo, hcombomem, hc, hs2⟩ := mem_targetCells o _ hcombos pc hpc
      have hpred := mem_availableTargetCombos_pred o hsample combo hcombomem
      constructor
      · intro _
        have hce : (⟨cell.color, cell.shape⟩ : Combo) = combo := by
          rw [hcol, hc, hsh, hs2]
        rw [hce]
        exact hpred
      · intro hF
        rw [htg, hT] at hF
        exact Bool.noConfusion hF
    · rw [List.mem_map] at hpc
      obtain ⟨c, hcd, heq⟩ := hpc
      have hpredF := hdpred c hcd
      constructor
      · intro hT
        rw [htg, ← heq] at hT
        exact Bool.noConfusion hT
      · intro _
        have hce : (⟨cell.color, cell.shape⟩ : Combo) = ⟨c.color, c.shape⟩ := by
          rw [hcol, hsh, ← heq]
        rw [hce]
        exact hpredF

/-- C9: a successful `generateGrid` run returns exactly `size * size`
cells whose ids are the sequential strings `cell-0` … `cell-(size^2 - 1)`
in the returned (post-shuffle) order. -/
theorem generateGrid_cells_ids (o : GenerateGridOptions) (s : ℕ) (g : GeneratedGrid)
    (hok : generateGrid o s = .ok g) :
    g.cells.length = o.size * o.size ∧
    g.cells.map (fun c => c.id) =
      (List.range (o.size * o.size)).map (fun i => "cell-" ++ toString i) := by
  obtain ⟨hsz, hcombos, distractors, s2, hfill, hg⟩ := generateGrid_ok_inv o s g hok
  obtain ⟨hdlen, _⟩ := fillDistractors_spec o _ _ _ _ hfill
  obtain ⟨htc1, htc2⟩ := targetCountStep_bounds o s (Nat.pos_of_ne_zero hsz)
  subst hg
  have hplen : (targetCells o (targetCountStep o s).1 ++
      distractors.map (fun c => ProvisionalCell.mk c.color c.shape false)).length =
      o.size * o.size := by
    rw [List.length_append, targetCells_length, List.length_map, hdlen]
    have : totalCellsOf o = o.size * o.size := rfl
    omega
  constructor
  · show (gridCells (targetCells o (targetCountStep o s).1 ++
      distractors.map (fun c => ProvisionalCell.mk c.color c.shape false)) s2).length =
        o.size * o.size
    rw [gridCells_length, hplen]
  · show (gridCells (targetCells o (targetCountStep o s).1 ++
      distractors.map (fun c => ProvisionalCell.mk c.color c.shape false)) s2).map
        (fun c => c.id) = _
    rw [gridCells_ids, hplen]

end Miniverse

namespace Miniverse

/-! ### Concrete generateGrid runs and the seed-determinism claims -/

/-- C1 counterexample: an options record that is valid in the claim's sense
(positive size, non-empty palette and shapes, satisfiable rule) whose
`sampleTargets` exemplar does not satisfy the predicate.  `generateGrid`
emits that exemplar as a target cell unchecked, so the grid contains an
`isTarget = true` cell that fails `rule.predicate`. -/
theorem generateGrid_c1_counterexample :
    (let o : GenerateGridOptions := ⟨1, 1, 1, [Color.rose, Color.amber], [Shape.triangle],
        ⟨fun combo => combo.color == Color.amber, [⟨Color.rose, Shape.triangle⟩]⟩,
        SimilarityLevel.contrast⟩
    0 < o.size ∧ o.palette ≠ [] ∧ o.shapes ≠ [] ∧
      o.palette.any (fun c => o.shapes.any (fun sh => o.rule.predicate ⟨c, sh⟩)) = true ∧
      ∃ g, generateGrid o 7 = .ok g ∧ ∃ cell ∈ g.cells, cell.isTarget = true ∧
        o.rule.predicate ⟨cell.color, cell.shape⟩ = false) :=
  ⟨Nat.one_pos, by simp, by simp, by decide,
    ⟨1, [⟨"cell-0", Shape.triangle, Color.rose, true⟩], 1⟩, rfl,
    ⟨"cell-0", Shape.triangle, Color.rose, true⟩, by simp, rfl, rfl⟩

/-- C1 witness: a concrete valid run with an empty exemplar list; the
invariant holds on the returned grid. -/
theorem generateGrid_target_invariant_witness :
    ∃ g, generateGrid ⟨1, 1, 1, [Color.rose, Color.amber], [Shape.triangle],
        ⟨fun combo => combo.color == Color.rose, []⟩, SimilarityLevel.contrast⟩ 7 = .ok g ∧
      (g.cells.countP (fun c => c.isTarget) = g.targetCount ∧
       ∀ cell ∈ g.cells,
         (cell.isTarget = true →
           (fun combo : Combo => combo.color == Color.rose) ⟨cell.color, cell.shape⟩ = true) ∧
         (cell.isTarget = false →
           (fun combo : Combo => combo.color == Color.rose) ⟨cell.color, cell.shape⟩ =
             false)) := by
  refine ⟨⟨1, [⟨"cell-0", Shape.triangle, Color.rose, true⟩], 1⟩, rfl, ?_⟩
  exact generateGrid_target_invariant
    ⟨1, 1, 1, [Color.rose, Color.amber], [Shape.triangle],
      ⟨fun combo => combo.color == Color.rose, []⟩, SimilarityLevel.contrast⟩ 7
    ⟨1, [⟨"cell-0", Shape.triangle, Color.rose, true⟩], 1⟩ (by simp) rfl

/-- C9 witness: a concrete successful run has `size * size` cells with
sequential ids. -/
theorem generateGrid_cells_ids_witness :
    ∃ g, generateGrid ⟨1, 1, 1, [Color.rose, Color.amber], [Shape.triangle],
        ⟨fun combo => combo.color == Color.rose, []⟩, SimilarityLevel.contrast⟩ 11 = .ok g ∧
      (g.cells.length = 1 * 1 ∧
       g.cells.map (fun c => c.id) =
         (List.range (1 * 1)).map (fun i => "cell-" ++ toString i)) := by
  refine ⟨⟨1, [⟨"cell-0", Shape.triangle, Color.rose, true⟩], 1⟩, rfl, ?_⟩
  exact generateGrid_cells_ids
    ⟨1, 1, 1, [Color.rose, Color.amber], [Shape.triangle],
      ⟨fun combo => combo.color == Color.rose, []⟩, SimilarityLevel.contrast⟩ 11
    ⟨1, [⟨"cell-0", Shape.triangle, Color.rose, true⟩], 1⟩ rfl

/-- C2 counterexample: the empty string is a string seed, yet
`createSeededRng("")` falls through to the non-deterministic
`Math.random()` draw (modelled by the `ambient` argument), so two
instances built from the same seed `""` can emit different sequences. -/
theorem createSeededRng_determinism_counterexample :
    rngStream (createSeededRng (some (.str "")) 5) 1 ≠
      rngStream (createSeededRng (some (.str "")) 7) 1 := by
  have h5 : createSeededRng (some (.str "")) 5 = 5 := by decide
  have h7 : createSeededRng (some (.str "")) 7 = 7 := by decide
  rw [h5, h7]
  simp only [rngStream, rngNext, List.cons.injEq, and_true, ne_eq]
  norm_num

/-- C2 (amended): for every finite numeric seed and every non-empty string
seed, the normalized state does not depend on the ambient randomness, so
two `createSeededRng` instances from the same seed agree on every output
prefix and `generateGrid` returns identical grids from them for all
options. -/
theorem createSeededRng_determinism_claim (seed : Seed) (amb1 amb2 : ℕ)
    (h : ∀ sv, seed = .str sv → sv ≠ "") :
    createSeededRng (some seed) amb1 = createSeededRng (some seed) amb2 ∧
    (∀ n, rngStream (createSeededRng (some seed) amb1) n =
      rngStream (createSeededRng (some seed) amb2) n) ∧
    ∀ (o : GenerateGridOptions),
      generateGrid o (createSeededRng (some seed) amb1) =
        generateGrid o (createSeededRng (some seed) amb2) := by
  have hstate : normalizeSeed (some seed) amb1 = normalizeSeed (some seed) amb2 := by
    cases seed with
    | num q => rfl
    | str sv =>
      have hne := h sv rfl
      have hlen : 0 < sv.length := by
        cases sv with
        | mk data =>
          cases data with
          | nil => exact absurd rfl hne
          | cons c cs => simp [String.length]
      simp [normalizeSeed, hlen]
  have heq : createSeededRng (some seed) amb1 = createSeededRng (some seed) amb2 := by
    unfold createSeededRng
    rw [hstate]
  exact ⟨heq, fun n => by rw [heq], fun o => by rw [heq]⟩

/-- C2 witness: numeric seed 42 under two different ambient draws. -/
theorem createSeededRng_determinism_claim_witness :
    createSeededRng (some (.num 42)) 0 = createSeededRng (some (.num 42)) 123456 ∧
    rngStream (createSeededRng (some (.num 42)) 0) 3 =
      rngStream (createSeededRng (some (.num 42)) 123456) 3 := by
  have h := createSeededRng_determinism_claim (.num 42) 0 123456
    (fun sv hsv => Seed.noConfusion hsv)
  exact ⟨h.1, h.2.1 3⟩

end Miniverse
